import Mathlib

/-!
Verification development for the WxO Builder editor core: a shallow Lean
embedding of the OpenAPI / bound-tool compilation pipeline, the structural
validator, the parameter-table write-back logic, the update-tool request
builder, and the remote invocation poll loops, together with theorems about
the behaviours the specification describes.
-/

namespace WxO

/-! ### JSON value model

JavaScript values flowing through the editor are modelled by `JValue`.
Object fields are an ordered association list (JS objects preserve insertion
order); a missing field is `Option.none`, distinct from an explicit `jnull`.
Numbers are modelled as integers: no claim in this development depends on
fractional numeric values. -/

inductive JValue where
  | jnull
  | jbool (b : Bool)
  | jnum (n : Int)
  | jstr (s : String)
  | jarr (elems : List JValue)
  | jobj (fields : List (String × JValue))

/-- JavaScript truthiness of a value (`undefined` is handled at `Option` level). -/
def truthy : JValue → Bool
  | .jnull => false
  | .jbool b => b
  | .jnum n => n != 0
  | .jstr s => s != ""
  | .jarr _ => true
  | .jobj _ => true

/-- Truthiness of a possibly-missing value; `none` (undefined) is falsy. -/
def truthyOpt : Option JValue → Bool
  | none => false
  | some v => truthy v

/-- `typeof` for modelled values; `typeof null`, arrays and objects are "object". -/
def typeofStr : JValue → String
  | .jnull => "object"
  | .jbool _ => "boolean"
  | .jnum _ => "number"
  | .jstr _ => "string"
  | .jarr _ => "object"
  | .jobj _ => "object"

/-- Property read `v[k]`: `none` when absent or when `v` is not an object. -/
def jGet : JValue → String → Option JValue
  | .jobj fields, k => fields.lookup k
  | _, _ => none

/-- A truthy value of JS type "object" (an array or a non-null object). -/
def isObjLike (v : JValue) : Bool :=
  typeofStr v == "object" && truthy v

def isArr : JValue → Bool
  | .jarr _ => true
  | _ => false

/-- JS `a || b` on possibly-missing values. -/
def jOr (a b : Option JValue) : Option JValue :=
  if truthyOpt a then a else b

/-- JS `a ?? b` (nullish coalescing) on possibly-missing values. -/
def jCoalesce (a b : Option JValue) : Option JValue :=
  match a with
  | none => b
  | some .jnull => b
  | some v => some v

/-- Drop a value that is JS-`null`; keeps everything else. -/
def nonNull : Option JValue → Option JValue
  | some .jnull => none
  | x => x

/-- JS `s || d` for a possibly-missing string field (empty string is falsy). -/
def strOr (a : Option String) (d : String) : String :=
  match a with
  | some s => if s = "" then d else s
  | none => d

/-- JS `s1 || s2` keeping the string shape (empty string is falsy). -/
def strOrKeep (s d : String) : String :=
  if s = "" then d else s

/-- `toUpperCase()` (kernel-computable form of `String.toUpper`). -/
def toUpperStr (s : String) : String :=
  String.mk (s.toList.map Char.toUpper)

/-- `toLowerCase()` (kernel-computable form of `String.toLower`). -/
def toLowerStr (s : String) : String :=
  String.mk (s.toList.map Char.toLower)

/-- `trim()` (kernel-computable form of `String.trim`). -/
def trimStr (s : String) : String :=
  String.mk (((s.toList.dropWhile Char.isWhitespace).reverse.dropWhile
    Char.isWhitespace).reverse)

/-- `split(sep)` for a single-character separator, keeping empty segments
(kernel-computable form of `String.splitOn`). -/
def splitOnChar (sep : Char) (s : String) : List String :=
  loop s.toList []
where
  loop : List Char → List Char → List String
  | [], acc => [String.mk acc.reverse]
  | c :: cs, acc =>
    if c = sep then String.mk acc.reverse :: loop cs []
    else loop cs (c :: acc)

/-- JS property assignment `obj[k] = v` on an ordered field list: replaces the
value in place when the key exists, otherwise appends the field. -/
def insertAssoc {α : Type} (l : List (String × α)) (k : String) (v : α) :
    List (String × α) :=
  match l with
  | [] => [(k, v)]
  | (k', v') :: t => if k' = k then (k, v) :: t else (k', v') :: insertAssoc t k v

/-! ### ToolSchemaValidator (`validateOas` in `SkillEditorPanel.ts`)

Routes on the presence of a `binding.openapi` object (the bound-tool dialect)
before any generic OpenAPI field check, exactly as the source does. -/

/-- `oas?.binding?.openapi`. -/
def bindingOpenapi? (oas : JValue) : Option JValue :=
  (jGet oas "binding").bind fun b => jGet b "openapi"

/-- The bound-tool (WxO skill) branch of the validator. -/
def validateOasBound (oas binding : JValue) : List String :=
  (if !truthyOpt (jGet binding "http_method") then
      ["binding.openapi.http_method is required"] else []) ++
  (if !truthyOpt (jGet binding "http_path") then
      ["binding.openapi.http_path is required"] else []) ++
  (if !(truthyOpt (jGet oas "input_schema") &&
        (match jGet oas "input_schema" with
         | some v => typeofStr v == "object"
         | none => false)) then
      ["input_schema is required for WxO tools"] else []) ++
  (if !truthyOpt (jGet oas "name") && !truthyOpt (jGet oas "display_name") then
      ["name or display_name is required"] else [])

def validateOas (oas : JValue) : List String :=
  if !(truthy oas && typeofStr oas == "object") then
    ["Content is not a valid object."]
  else
    match bindingOpenapi? oas with
    | some binding =>
      if isObjLike binding then validateOasBound oas binding
      else validateOasOpen oas
    | none => validateOasOpen oas
where
  /-- The plain-OpenAPI branch of the validator. -/
  validateOasOpen (oas : JValue) : List String :=
    (match jGet oas "openapi" with
     | none => ["Missing required field: openapi"]
     | some v =>
       if !truthy v then ["Missing required field: openapi"]
       else if typeofStr v != "string" then
         ["openapi must be a string (e.g. \"3.0.1\")"]
       else []) ++
    (match jGet oas "info" with
     | none => ["Missing required field: info"]
     | some info =>
       if !truthy info then ["Missing required field: info"]
       else
         (if !truthyOpt (jGet info "title") then ["info.title is required"] else []) ++
         (match jGet info "version" with
          | none => ["info.version is recommended"]
          | some .jnull => ["info.version is recommended"]
          | some _ => [])) ++
    (match jGet oas "paths" with
     | none => []
     | some v =>
       if typeofStr v != "object" || isArr v then ["paths must be an object"] else []) ++
    (match jGet oas "servers" with
     | none => []
     | some v => if !isArr v then ["servers must be an array"] else [])

/-! ### Save gating (the `saveSkill` message handler)

With a non-empty validation result the handler shows the
"validation issues … Continue anyway?" dialog and proceeds only on
"Update Anyway"; with an empty result it shows a plain confirmation and
proceeds only on "Update". -/

inductive SaveDialog where
  | continueAnyway (errors : List String)
  | confirmUpdate
  deriving Repr, DecidableEq

def saveSkillDialog (content : JValue) : SaveDialog :=
  match validateOas content with
  | [] => .confirmUpdate
  | es => .continueAnyway es

/-- Whether the update call is reached, given which button the user presses
in each dialog (`updateAnyway` for the override dialog, `updateConfirmed`
for the plain confirmation). -/
def saveProceeds (content : JValue) (updateAnyway updateConfirmed : Bool) : Bool :=
  match saveSkillDialog content with
  | .continueAnyway _ => updateAnyway
  | .confirmUpdate => updateConfirmed

/-! ### ToolSpecCompiler data model

Typed shapes for the OpenAPI documents fed to `buildToolSpec` and for the
bound-tool records it produces (`src/unnamed/part_001`). Optional fields are
`Option`; fields that can hold arbitrary JSON stay `JValue`. -/

/-- A parameter's `schema` object. -/
structure ParamSchema where
  type? : Option String := none
  title? : Option String := none
  default? : Option JValue := none
  description? : Option String := none
  enum? : Option (List JValue) := none

/-- One entry of an operation's `parameters` array. -/
structure Param where
  name : String
  inLoc? : Option String := none
  required : Bool := false
  description? : Option String := none
  schema? : Option ParamSchema := none

/-- The `responses["200"]` object, with its `content["application/json"].schema`
chain flattened into `jsonSchema?` (absent when any link of the chain is). -/
structure Resp200 where
  description? : Option String := none
  jsonSchema? : Option JValue := none

structure Operation where
  operationId? : Option String := none
  summary? : Option String := none
  parameters : List Param := []
  security? : Option JValue := none
  resp200? : Option Resp200 := none

/-- One entry of the `servers` array: either a bare URL string or an object
with an optional `url` field. -/
inductive ServerEntry where
  | str (s : String)
  | obj (url? : Option String)

structure OasInfo where
  title? : Option String := none
  version? : Option String := none
  description? : Option String := none
  skillName? : Option String := none
  skillId? : Option String := none

/-- An OpenAPI document as read by the compiler. `paths` is an ordered map
path → ordered map method → operation. The `binding*` fields model a
`binding.openapi` object present on the input document (read as fallbacks). -/
structure Oas where
  openapi? : Option String := none
  info? : Option OasInfo := none
  servers : List ServerEntry := []
  paths : List (String × List (String × Operation)) := []
  securitySchemes? : Option (List (String × JValue)) := none
  security? : Option JValue := none
  xIbmSecurity? : Option JValue := none
  xIbmConnectionId? : Option JValue := none
  bindingSecurity? : Option JValue := none
  bindingConnectionId? : Option JValue := none

/-- User-entered tool metadata passed to the compiler. -/
structure ToolMeta where
  name : String
  description? : Option String := none
  permission? : Option String := none
  restrictions? : Option JValue := none
  tags? : Option JValue := none

/-- One property of a compiled `input_schema`. -/
structure PropSchema where
  type : String
  title : String
  description : String
  inLoc : String
  default? : Option JValue := none
  aliasName? : Option String := none

structure InputSchema where
  properties : List (String × PropSchema)
  required? : Option (List String)

structure OpenApiBinding where
  http_method : String
  http_path : String
  security : List JValue
  servers : List (Option String)
  connection_id : Option JValue

/-- The vendor bound-tool record produced by `buildToolSpec`. -/
structure BoundSpec where
  name : String
  display_name : String
  description? : Option String
  permission : String
  restrictions? : Option JValue
  tags? : Option JValue
  binding? : Option OpenApiBinding := none
  input_schema? : Option InputSchema := none
  output_schema? : Option JValue := none

/-! ### `deriveBindingSecurity` -/

/-- First truthy of two optional JSON values, with a JSON default
(`a || b || d`). -/
def jOrD (a b : Option JValue) (d : JValue) : JValue :=
  match jOr a b with
  | some v => v
  | none => d

def deriveBindingSecurity (oas : Oas) (op : Operation) : List JValue :=
  match jCoalesce oas.xIbmSecurity? oas.bindingSecurity? with
  | some (.jarr explicit) =>
    if explicit.length > 0 then explicit else deriveFromRefs oas op
  | _ => deriveFromRefs oas op
where
  /-- Resolve per-operation (or root) `security` refs against
  `components.securitySchemes`; only `apiKey` and `http`/`bearer` schemes are
  kept, all other scheme types are dropped. -/
  deriveFromRefs (oas : Oas) (op : Operation) : List JValue :=
    match jCoalesce op.security? oas.security? with
    | some (.jarr secRefs) => secRefs.foldl (flatten (oas.securitySchemes?.getD [])) []
    | _ => []
  flatten (schemes : List (String × JValue)) (acc : List JValue) (ref : JValue) :
      List JValue :=
    match ref with
    | .jobj ((refName, _) :: _) =>
      match schemes.lookup refName with
      | some scheme =>
        if (match jGet scheme "type" with
            | some (.jstr t) => t == "apiKey"
            | _ => false) then
          acc ++ [.jobj [("type", .jstr "apiKey"),
            ("in", jOrD (jGet scheme "in") none (.jstr "query")),
            ("name", jOrD (jGet scheme "name") none (.jstr "apiKey"))]]
        else if (match jGet scheme "type" with
                 | some (.jstr t) => t == "http"
                 | _ => false) ||
                (match jGet scheme "scheme" with
                 | some (.jstr s) => s == "bearer"
                 | _ => false) then
          acc ++ [.jobj [("type", .jstr "http"),
            ("scheme", jOrD (jGet scheme "scheme") none (.jstr "bearer")),
            ("name", jOrD (jGet scheme "name") none (.jstr "Authorization"))]]
        else acc
      | none => acc
    | _ => acc

/-! ### `buildToolSpec` -/

/-- The parameter loop of `buildToolSpec`: builds the `input_schema`
properties (keys de-duplicated across `in` locations by prefixing
`in_name` and recording the wire name under `aliasName`) and the list of
required property keys. -/
def compileParams (ps : List Param) : List (String × PropSchema) × List String :=
  loop ps [] [] []
where
  loop : List Param → List (String × PropSchema) → List String → List String →
      List (String × PropSchema) × List String
  | [], props, req, _ => (props, req)
  | p :: rest, props, req, usedKeys =>
    let paramIn := strOr p.inLoc? "query"
    let propKey := if usedKeys.contains p.name then paramIn ++ "_" ++ p.name else p.name
    let propSchema : PropSchema :=
      { type := strOr (p.schema?.bind (·.type?)) "string"
        title := (p.schema?.bind (·.title?)).getD p.name
        description := strOr p.description? (strOr (p.schema?.bind (·.description?)) "")
        inLoc := paramIn
        default? := nonNull (p.schema?.bind (·.default?))
        aliasName? := if propKey ≠ p.name then some p.name else none }
    loop rest (insertAssoc props propKey propSchema)
      (if p.required then req ++ [propKey] else req)
      (usedKeys ++ [propKey])

/-- The fixed HTTP method search order of `buildToolSpec`. -/
def methodOrder : List String := ["get", "post", "put", "patch", "delete"]

/-- Select the operation compiled by `buildToolSpec`: the first declared path,
and within it the first method present in the fixed `methodOrder`. -/
def selectOp (paths : List (String × List (String × Operation))) :
    Option (String × String × Operation) :=
  match paths.map Prod.fst with
  | [] => none
  | pathKey :: _ =>
    match paths.lookup pathKey with
    | none => none
    | some pathObj =>
      methodOrder.firstM fun m => (pathObj.lookup m).map fun op => (pathKey, m, op)

def buildToolSpec (toolSpec : ToolMeta) (oas : Oas) : BoundSpec :=
  let base : BoundSpec :=
    { name := toolSpec.name
      display_name :=
        strOr (oas.info?.bind (·.skillName?))
          (strOr (oas.info?.bind (·.title?)) toolSpec.name)
      description? := toolSpec.description?
      permission := strOr toolSpec.permission? "read_write"
      restrictions? := if truthyOpt toolSpec.restrictions? then toolSpec.restrictions? else none
      tags? := if truthyOpt toolSpec.tags? then toolSpec.tags? else none }
  match selectOp oas.paths with
  | none => base
  | some (pathKey, method, op) =>
    let servers := oas.servers.map fun s =>
      match s with
      | .str u => some u
      | .obj url? => url?
    let connectionId := jCoalesce oas.xIbmConnectionId? oas.bindingConnectionId?
    let security := deriveBindingSecurity oas op
    let (properties, required) := compileParams op.parameters
    { base with
      binding? := some
        { http_method := toUpperStr method
          http_path := pathKey
          security := security
          servers := servers
          connection_id := if truthyOpt connectionId then connectionId else none }
      input_schema? := some
        { properties := properties
          required? := if required.length > 0 then some required else none }
      output_schema? :=
        match op.resp200? with
        | none => none
        | some resp =>
          match resp.jsonSchema? with
          | none => none
          | some schema =>
            some (setDescription schema
              (jOrD (jGet schema "description") (resp.description?.map .jstr)
                (.jstr "Success"))) }
where
  /-- `{...responseSchema, description: <chain>}`: the spread keeps every field
  of the response schema and overrides (or appends) `description`. -/
  setDescription (schema : JValue) (d : JValue) : JValue :=
    match schema with
    | .jobj fields => .jobj (insertAssoc fields "description" d)
    | v => v

/-! ### `skillToOas` (decompilation, the Create-New-Tool copy flow) -/

/-- Sanitize a tool name into the copied skill id base:
`replace(/[^a-zA-Z0-9_-]/g, '-')`. -/
def skillIdBase (s : String) : String :=
  String.mk (s.toList.map fun c =>
    if c.isAlphanum || c = '_' || c = '-' then c else '-')

def skillToOas (skill : BoundSpec) : Oas :=
  let method := toLowerStr (match skill.binding? with
    | some b => strOrKeep b.http_method "GET"
    | none => "GET")
  let path := match skill.binding? with
    | some b => strOrKeep b.http_path "/"
    | none => "/"
  let servers : List String :=
    (match skill.binding? with
     | some b => b.servers
     | none => []).filterMap fun u? =>
      match u? with
      | some u => if u = "" then none else some u
      | none => none
  let params : List Param :=
    match skill.input_schema? with
    | none => []
    | some is =>
      is.properties.map fun (key, prop) =>
        { name := prop.aliasName?.getD key
          inLoc? := some (strOrKeep prop.inLoc "query")
          required := (is.required?.getD []).contains key
          description? := some (strOrKeep prop.description "")
          schema? := some
            { type? := some (strOrKeep prop.type "string")
              title? := some prop.title
              default? := prop.default?
              enum? := none } }
  let title := strOrKeep skill.display_name (strOrKeep skill.name "Tool") ++ " (Copy)"
  let skillId := skillIdBase (strOrKeep skill.name "tool") ++ "-copy-v1"
  { openapi? := some "3.0.1"
    info? := some
      { title? := some title
        version? := some "1.0.0"
        description? := some (strOr skill.description? "")
        skillName? := some title
        skillId? := some skillId }
    servers :=
      if servers.length > 0 then servers.map (.obj ∘ some)
      else [.obj (some "https://httpbin.org")]
    paths := [(path, [(method,
      { operationId? := some (strOrKeep skill.name "operation")
        summary? := some (strOrKeep skill.display_name (strOrKeep skill.name "Operation"))
        parameters := params
        resp200? := some
          { description? := some "Success"
            jsonSchema? := some
              (match skill.output_schema? with
               | some os => if truthy os then os else .jobj [("type", .jstr "object")]
               | none => .jobj [("type", .jstr "object")]) } })])]
    xIbmSecurity? :=
      match skill.binding? with
      | some b => if b.security.length > 0 then some (.jarr b.security) else none
      | none => none
    xIbmConnectionId? :=
      match skill.binding? with
      | some b => if truthyOpt b.connection_id then b.connection_id else none
      | none => none }

/-! ### SchemaInferencer (`inferSchema` in `SkillEditorPanel.ts`)

`JValue` numbers are integers, so the `Number.isInteger` branch always
classifies them as `integer`; fractional samples are outside this embedding's
number domain. `substring(0, 30)` is modelled with `String.take` (characters
rather than UTF-16 code units). -/

mutual

def inferSchema : JValue → JValue
  | .jnull => .jobj [("type", .jstr "string"), ("nullable", .jbool true)]
  | .jstr _ => .jobj [("type", .jstr "string")]
  | .jnum _ => .jobj [("type", .jstr "integer")]
  | .jbool _ => .jobj [("type", .jstr "boolean")]
  | .jarr [] => .jobj [("type", .jstr "array"), ("items", .jobj [("type", .jstr "string")])]
  | .jarr (x :: _) => .jobj [("type", .jstr "array"), ("items", inferSchema x)]
  | .jobj fields => .jobj [("type", .jstr "object"), ("properties", .jobj (inferProps fields))]

/-- Per-key recursion of the object case; a truthy string value longer than
10 characters gets a synthesized `description` with a 30-character preview. -/
def inferProps : List (String × JValue) → List (String × JValue)
  | [] => []
  | (k, v) :: rest =>
    let base := inferSchema v
    let schema :=
      match v with
      | .jstr s =>
        if s ≠ "" && s.length > 10 then
          match base with
          | .jobj fs => JValue.jobj
              (insertAssoc fs "description" (.jstr ("Example: " ++ String.mk (s.toList.take 30) ++ "...")))
          | b => b
        else base
      | _ => base
    (k, schema) :: inferProps rest

end

/-! ### URL path helpers (`_pathToOperationId`, `_pathToSummary`) -/

/-- `path.replace(/^\//, '')`: removes a single leading slash. -/
def dropOneLeadingSlash (s : String) : String :=
  match s.toList with
  | '/' :: rest => String.mk rest
  | _ => s

/-- `path.replace(/^\//,'').split('/').filter(Boolean)`. -/
def pathSegments (path : String) : List String :=
  (splitOnChar '/' (dropOneLeadingSlash path)).filter (· ≠ "")

/-- `replace(/\.[a-z0-9]+$/i, '')`: strips a trailing dot-extension of one or
more ASCII alphanumerics. -/
def stripExt (s : String) : String :=
  let rev := s.toList.reverse
  let ext := rev.takeWhile Char.isAlphanum
  if ext.isEmpty then s
  else
    match rev.drop ext.length with
    | '.' :: restRev => String.mk restRev.reverse
    | _ => s

/-- Replace every maximal run of whitespace by a single `repl` character
(the `/\s+/g` regex); `inRun` tracks whether the previous character was
whitespace. -/
def collapseWsAux (repl : Char) (inRun : Bool) : List Char → List Char
  | [] => []
  | c :: cs =>
    if c.isWhitespace then
      if inRun then collapseWsAux repl true cs
      else repl :: collapseWsAux repl true cs
    else c :: collapseWsAux repl false cs

def collapseWsWith (repl : Char) (cs : List Char) : List Char :=
  collapseWsAux repl false cs

def pathToOperationId (path : String) : String :=
  let seg := pathSegments path
  let last := strOrKeep (seg.getLast?.getD "") "operation"
  let base := String.mk ((stripExt last).toList.map fun c =>
    if c.isAlphanum then c else '_')
  strOrKeep base "generatedOperation"

def pathToSummary (path : String) : String :=
  let seg := pathSegments path
  let last := strOrKeep (seg.getLast?.getD "") "data"
  let base := stripExt last
  let spaced := base.toList.map fun c =>
    if c.isAlphanum || c.isWhitespace then c else ' '
  strOrKeep (trimStr (String.mk (collapseWsWith ' ' spaced))) "Generated Operation"

/-! ### OpenApiDocumentBuilder (the `generateOaS` message handler)

URL parsing (`new URL(url)`) is external: the origin and pathname are taken
as inputs. The homepage scrape that yields `serviceInfo` is an external
best-effort collaborator, also taken as an input. The `Date.now()` timestamp
in the generated skill id is the `skillIdSuffix` input. -/

structure ServiceInfo where
  title? : Option String := none
  description? : Option String := none

def apiKeyAliases : List String := ["key", "apiKey", "api_key"]

/-- `(apiKeyParamName || 'apiKey').trim() || 'apiKey'`. -/
def resolveApiKeyParamName (apiKeyParamName? : Option String) : String :=
  strOrKeep (trimStr (strOr apiKeyParamName? "apiKey")) "apiKey"

def hasApiKeyParam (paramNames : List String) (apiKeyParam : String) : Bool :=
  paramNames.any fun k => k == apiKeyParam || apiKeyAliases.contains k

/-- The security-scheme `name`: the configured name when it is itself an
observed parameter, else the first observed alias, else the configured name. -/
def secNameFor (paramNames : List String) (apiKeyParam : String) : String :=
  if hasApiKeyParam paramNames apiKeyParam && paramNames.contains apiKeyParam then
    apiKeyParam
  else if hasApiKeyParam paramNames apiKeyParam then
    match paramNames.find? (fun k => apiKeyAliases.contains k) with
    | some k => strOrKeep k apiKeyParam
    | none => apiKeyParam
  else apiKeyParam

/-- Observed request parameters become query parameters with their observed
value as `schema.default` (omitted for `null` values). -/
def genObservedParams (params : List (String × JValue)) : List Param :=
  params.map fun kv =>
    { name := kv.1
      inLoc? := some "query"
      required := false
      schema? := some
        { type? := some (typeofStr kv.2)
          default? := nonNull (some kv.2) } }

def generateOaS (url origin path method : String)
    (params? : Option (List (String × JValue))) (responseBody : JValue)
    (serviceInfo : ServiceInfo) (apiKeyParamName? : Option String)
    (skillIdSuffix : String) : Oas :=
  let oasParams := match params? with
    | some ps => genObservedParams ps
    | none => []
  let responseSchema := jOrD (some (inferSchema responseBody)) none
    (.jobj [("type", .jstr "object")])
  let paramNames := match params? with
    | some ps => ps.map Prod.fst
    | none => []
  let apiKeyParam := resolveApiKeyParamName apiKeyParamName?
  let hasKey := hasApiKeyParam paramNames apiKeyParam
  let secName := secNameFor paramNames apiKeyParam
  { openapi? := some "3.0.1"
    info? := some
      { title? := some (strOr serviceInfo.title? "Generated Tool")
        description? := some
          (strOr serviceInfo.description? ("Tool generated from " ++ url))
        version? := some "1.0.0"
        skillName? := some (strOr serviceInfo.title? "Generated Tool Service")
        skillId? := some ("generated-" ++ skillIdSuffix) }
    servers := [.obj (some origin)]
    paths := [(path, [(toLowerStr method,
      { operationId? := some (pathToOperationId path)
        summary? := some (pathToSummary path)
        parameters := if toLowerStr method = "get" then oasParams else []
        resp200? := some
          { description? := some "Success"
            jsonSchema? := some responseSchema } })])]
    securitySchemes? :=
      if hasKey then
        some [("ApiKeyAuth", .jobj
          [("type", .jstr "apiKey"), ("in", .jstr "query"), ("name", .jstr secName)])]
      else none
    security? :=
      if hasKey then some (.jarr [.jobj [("ApiKeyAuth", .jarr [])]]) else none }

/-! ### `updateSkill` (PUT with PATCH fallback, restricted payload) -/

/-- `name.replace(/[^a-zA-Z0-9_]/g, '_').replace(/^[^a-zA-Z_]+/, '')`. -/
def apiNameSanitize (s : String) : String :=
  let repl := s.toList.map fun c => if c.isAlphanum || c = '_' then c else '_'
  String.mk (repl.dropWhile fun c => !(c.isAlpha || c = '_'))

structure HttpRequest where
  method : String
  path : String
  body : List (String × JValue)

/-- `if (value) payload.field = value`: append the field when truthy. -/
def condAppend (acc : List (String × JValue)) (field : String) (o : Option JValue) :
    List (String × JValue) :=
  match o with
  | some v => if truthy v then acc ++ [(field, v)] else acc
  | none => acc

/-- The update payload built from the edited document. `none` when a truthy
non-string `name` field would make the source's `.replace` call throw a
TypeError before any request is sent. -/
def updateSkillPayload (skillJson : JValue) : Option (List (String × JValue)) :=
  let nameF := jGet skillJson "name"
  let withName : Option (List (String × JValue)) :=
    if truthyOpt nameF then
      match nameF with
      | some (.jstr s) => some [("name", .jstr (apiNameSanitize s))]
      | _ => none
    else some []
  withName.map fun acc =>
    let acc := condAppend acc "display_name" (jGet skillJson "display_name")
    let acc := condAppend acc "description" (jGet skillJson "description")
    let acc := acc ++ [("permission", jOrD (jGet skillJson "permission") none
      (.jstr "read_write"))]
    let acc := condAppend acc "restrictions" (jGet skillJson "restrictions")
    condAppend acc "tags" (jGet skillJson "tags")

/-- The HTTP requests issued by `updateSkill`: a PUT, followed by a PATCH with
the same payload exactly when the PUT response status is 405. -/
def updateSkillRequests (skillId : String) (skillJson : JValue) (putStatus : Nat) :
    Option (List HttpRequest) :=
  (updateSkillPayload skillJson).map fun payload =>
    [{ method := "PUT", path := "/v1/orchestrate/tools/" ++ skillId, body := payload }] ++
    (if putStatus = 405 then
      [{ method := "PATCH", path := "/v1/orchestrate/tools/" ++ skillId, body := payload }]
     else [])

/-! ### FormSyncEngine write-back (`applyParamEditsToJson` in `skillEditor.js`)

One table row per parameter; the row's input/select values are taken as the
strings the DOM would yield (a missing input reads as the empty string). -/

structure ParamRow where
  /-- The `.param-name` text input value. -/
  name : String := ""
  /-- `data-deleted === '1'`: soft-deleted rows are excluded from serialization. -/
  deleted : Bool := false
  /-- The `.param-in` select value. -/
  inLoc : String := "query"
  /-- The `.param-type` select value. -/
  type : String := "string"
  /-- The `.param-required` checkbox. -/
  required : Bool := false
  /-- The `.param-default` text input value. -/
  defaultText : String := ""
  /-- The `.param-desc` text input value. -/
  desc : String := ""

/-- Character class `[a-zA-Z0-9_]`. -/
def isIdentChar (c : Char) : Bool :=
  c.isAlphanum || c = '_'

/-- The schema-table name sanitizer:
`raw ? raw.replace(/\s+/g,'_').replace(/[^a-zA-Z0-9_]/g,'_')
.replace(/^_+/,'').replace(/_+$/,'') || null : null`
(whitespace runs and out-of-class characters become underscores; leading and
trailing underscores are then trimmed; an empty result is `null`). -/
def sanitizeKey (raw : String) : Option String :=
  if raw = "" then none
  else
    let s1 := collapseWsWith '_' raw.toList
    let s2 := s1.map fun c => if isIdentChar c then c else '_'
    let s3 := ((s2.dropWhile (· = '_')).reverse.dropWhile (· = '_')).reverse
    if s3.isEmpty then none else some (String.mk s3)

/-- A string that "strips" out-of-class characters instead of replacing them
with underscores — this is what the specification's sentence describes; it is
compared against the source's `sanitizeKey` and is NOT part of the source. -/
def sanitizeKeySpecWords (raw : String) : Option String :=
  if raw = "" then none
  else
    let s1 := collapseWsWith '_' raw.toList
    let s2 := s1.filter isIdentChar
    let s3 := ((s2.dropWhile (· = '_')).reverse.dropWhile (· = '_')).reverse
    if s3.isEmpty then none else some (String.mk s3)

/-- The property value written for a schema-table row. -/
structure EditedProp where
  type : String
  description : String
  inLoc : String
  default? : Option JValue := none

/-- `parseParamDefault`: trim; empty → omitted; `"true"`/`"false"` → booleans;
a numeric literal that round-trips (`String(parseFloat(v)) === v`) → number;
anything else passes through as a string. `JValue` numbers are integers, so
only canonical integer literals take the number branch here; decimal literals
fall through to the string case (no claim depends on them). -/
def parseParamDefault (v : String) : Option JValue :=
  let v := trimStr v
  if v = "" then none
  else if v = "true" then some (.jbool true)
  else if v = "false" then some (.jbool false)
  else
    match canonicalInt v with
    | some n => some (.jnum n)
    | none => some (.jstr v)
where
  /-- `some n` exactly when `v` is the canonical decimal rendering of the
  integer `n` (no leading zeros, no `-0`). -/
  canonicalInt (v : String) : Option Int :=
    match v.toList with
    | [] => none
    | '-' :: ds =>
      if digitsCanonical ds && ds ≠ ['0'] then some (-(digitsVal ds : Int))
      else none
    | ds =>
      if digitsCanonical ds then some ((digitsVal ds : Int))
      else none
  digitsCanonical (ds : List Char) : Bool :=
    match ds with
    | [] => false
    | ['0'] => true
    | d :: _ => ds.all Char.isDigit && d != '0'
  digitsVal (ds : List Char) : Nat :=
    ds.foldl (fun n c => n * 10 + (c.toNat - '0'.toNat)) 0

/-- The `format === 'schema'` branch: rebuilds `input_schema.properties` and
`required` from the table rows, skipping deleted rows and rows whose
sanitized name is empty. -/
def applyParamEditsSchema (rows : List ParamRow) :
    List (String × EditedProp) × List String :=
  loop rows [] []
where
  loop : List ParamRow → List (String × EditedProp) → List String →
      List (String × EditedProp) × List String
  | [], props, req => (props, req)
  | r :: rest, props, req =>
    if r.deleted then loop rest props req
    else
      match sanitizeKey (trimStr r.name) with
      | none => loop rest props req
      | some key =>
        let prop : EditedProp :=
          { type := strOrKeep r.type "string"
            description := r.desc
            inLoc := strOrKeep r.inLoc "query"
            default? := parseParamDefault r.defaultText }
        loop rest (insertAssoc props key prop)
          (if r.required then req ++ [key] else req)

/-- The serialized `input_schema.required` value:
`required.length > 0 ? required : undefined`. -/
def applyParamEditsSchemaRequired (rows : List ParamRow) : Option (List String) :=
  let req := (applyParamEditsSchema rows).2
  if req.length > 0 then some req else none

/-- The `format === 'paths'` branch: rebuilds the operation's `parameters`
array. Names are only trimmed here (no sanitization); rows whose trimmed name
is empty are skipped. -/
def applyParamEditsPaths (rows : List ParamRow) : List Param :=
  rows.filterMap fun r =>
    if r.deleted then none
    else
      let name := trimStr r.name
      if name = "" then none
      else some
        { name := name
          inLoc? := some (strOrKeep r.inLoc "query")
          required := r.required
          description? := some r.desc
          schema? := some
            { type? := some (strOrKeep r.type "string")
              default? := parseParamDefault r.defaultText } }

/-! ### RemoteInvocationOrchestrator

The transport is a function from the poll-attempt index to the fetch outcome:
`none` models a non-ok response, `some body` the parsed JSON body. The
human-readable `reasoning` trace returned alongside the data is a rendering
concern and is not modelled; the `data`/`response` result and the control
flow (attempt count, per-attempt delay, raising vs returning) are. -/

mutual

/-- A compact `JSON.stringify` (no claim in this development evaluates it;
control-character escaping inside strings is not reproduced). -/
def jsonStringify : JValue → String
  | .jnull => "null"
  | .jbool true => "true"
  | .jbool false => "false"
  | .jnum n => toString n
  | .jstr s => "\"" ++ s ++ "\""
  | .jarr xs => "[" ++ jsonStringifyList xs ++ "]"
  | .jobj fs => "\x7b" ++ jsonStringifyFields fs ++ "\x7d"

def jsonStringifyList : List JValue → String
  | [] => ""
  | [x] => jsonStringify x
  | x :: xs => jsonStringify x ++ "," ++ jsonStringifyList xs

def jsonStringifyFields : List (String × JValue) → String
  | [] => ""
  | [(k, v)] => "\"" ++ k ++ "\":" ++ jsonStringify v
  | (k, v) :: fs => "\"" ++ k ++ "\":" ++ jsonStringify v ++ "," ++ jsonStringifyFields fs

end

mutual

/-- JS `String(x)` coercion (arrays join their elements with commas, with
null elements rendered empty; objects render as `[object Object]`). -/
def jsToString : JValue → String
  | .jnull => "null"
  | .jbool true => "true"
  | .jbool false => "false"
  | .jnum n => toString n
  | .jstr s => s
  | .jarr xs => jsToStringArr xs
  | .jobj _ => "[object Object]"

def jsToStringArr : List JValue → String
  | [] => ""
  | [x] => jsToStringElem x
  | x :: xs => jsToStringElem x ++ "," ++ jsToStringArr xs

/-- Inside `Array.prototype.join`, null renders as the empty string. -/
def jsToStringElem : JValue → String
  | .jnull => ""
  | v => jsToString v

end

/-- `m.role === 'assistant'`. -/
def isAssistant (m : JValue) : Bool :=
  match jGet m "role" with
  | some (.jstr r) => r == "assistant"
  | _ => false

/-- `c.type === t` for a content block. -/
def blockTypeIs (t : String) (c : JValue) : Bool :=
  match jGet c "type" with
  | some (.jstr s) => s == t
  | _ => false

def TOOL_MAX_ATTEMPTS : Nat := 12
def TOOL_POLL_DELAY_MS : Nat := 4000
def AGENT_MAX_ATTEMPTS : Nat := 15
def AGENT_POLL_DELAY_MS : Nat := 2000

/-- `Array.isArray(msgData) ? msgData : (msgData.messages || msgData.data || [])`.
A truthy non-array `messages`/`data` value would make the source's later
`.find` call throw; such bodies are outside the modelled domain and unwrap
to `[]`. -/
def toMessagesTool (msgData : JValue) : List JValue :=
  match msgData with
  | .jarr xs => xs
  | _ =>
    match jOr (jGet msgData "messages") (jGet msgData "data") with
    | some (.jarr xs) => xs
    | _ => []

/-- The tool-invocation poll loop: up to `fuel` further attempts, each
preceded by a 4000 ms delay; a non-ok fetch keeps the previous message list;
an ok fetch replaces it and the loop breaks when it holds an assistant
message. Returns the final message list and the list of per-attempt delays. -/
def pollToolLoop (fetch : Nat → Option JValue) :
    Nat → Nat → List JValue → List Nat → List JValue × List Nat
  | 0, _, msgs, delays => (msgs, delays)
  | fuel + 1, i, msgs, delays =>
    let delays := delays ++ [TOOL_POLL_DELAY_MS]
    match fetch i with
    | none => pollToolLoop fetch fuel (i + 1) msgs delays
    | some body =>
      let msgs := toMessagesTool body
      if msgs.any isAssistant then (msgs, delays)
      else pollToolLoop fetch fuel (i + 1) msgs delays

/-- `toolResult.content ?? toolResult.output ?? toolResult.result ?? toolResult`. -/
def toolResultValue (tr : JValue) : JValue :=
  match jCoalesce (jGet tr "content") (jCoalesce (jGet tr "output") (jGet tr "result")) with
  | some v => v
  | none => tr

/-- Result extraction from an assistant message's content-block array. -/
def extractFromContentArray (cs : List JValue) : JValue :=
  match cs.find? (blockTypeIs "tool_result") with
  | some tr => toolResultValue tr
  | none =>
    match textBlockValue (cs.find? (blockTypeIs "text")) with
    | some v => v
    | none =>
      match cs.find? (blockTypeIs "tool_use") with
      | some tu =>
        (match jCoalesce (jGet tu "content") none with
         | some v => v
         | none => tu)
      | none => .jarr cs
where
  /-- `textBlock && textBlock.text != null` guards the text branch;
  a string text is returned directly, otherwise `text?.value ?? JSON.stringify(text)`. -/
  textBlockValue : Option JValue → Option JValue
  | some tb =>
    (match jGet tb "text" with
     | some .jnull => none
     | none => none
     | some (.jstr s) => some (.jstr s)
     | some t =>
       some (match jCoalesce (jGet t "value") none with
             | some v => v
             | none => .jstr (jsonStringify t)))
  | none => none

/-- `responseData` for the tool invocation: `null` (`none`) unless the chosen
message exists and has truthy content. -/
def toolResponseData (assistantMsg? : Option JValue) : Option JValue :=
  match assistantMsg? with
  | none => none
  | some m =>
    match jGet m "content" with
    | some content =>
      if truthy content then
        match content with
        | .jarr cs => some (extractFromContentArray cs)
        | v => some v
      else none
    | none => none

/-- `invokeToolRemote` after a successful run submission: poll, then extract;
a degraded result (the raw message list, or a placeholder object when no
messages were collected) is returned — never an error — when no data can be
extracted. The second component is the list of per-attempt delays. -/
def invokeToolRemoteSim (submit : Except String String)
    (fetch : Nat → Option JValue) : Except String (JValue × String) × List Nat :=
  match submit with
  | .error e => (.error e, [])
  | .ok threadId =>
    let (messages, delays) := pollToolLoop fetch TOOL_MAX_ATTEMPTS 0 [] []
    let assistantMsg? :=
      match messages.find? isAssistant with
      | some m => some m
      | none => messages.head?
    let data :=
      match toolResponseData assistantMsg? with
      | some d => d
      | none =>
        if messages.length > 0 then .jarr messages
        else .jobj [("thread_id", .jstr threadId),
                    ("info", .jstr "No tool output in messages.")]
    (.ok (data, threadId), delays)

/-- `data.data || data`, then the `Array.isArray(messages)` check. -/
def toMessagesAgent (data : JValue) : Option (List JValue) :=
  match jOr (jGet data "data") (some data) with
  | some (.jarr xs) => some xs
  | _ => none

/-- `responseText` extraction in `invokeAgent`: string content is returned
directly; array content joins the `text` blocks (with two fallback chains);
anything else is "Unknown format". -/
def agentResponseText (content? : Option JValue) : String :=
  match content? with
  | some (.jstr s) => s
  | some (.jarr cs) =>
    let textParts := (cs.filter (blockTypeIs "text")).filterMap fun c =>
      match jCoalesce ((jGet c "text").bind (fun t => jGet t "value")) (jGet c "text") with
      | some v => if truthy v then some v else none
      | none => none
    let joined := trimStr (String.intercalate " " (textParts.map jsToString))
    strOrKeep joined
      (strOrKeep
        (String.intercalate " " (cs.map fun c =>
          jsToString (jOrD ((jGet c "text").bind (fun t => jGet t "value"))
            (jGet c "text") (.jstr (jsonStringify c)))))
        "(See reasoning for details)")
  | _ => "Unknown format"

/-- The agent-chat poll loop: up to `fuel` further attempts, each preceded by
a 2000 ms delay; returns on the LAST assistant message of the first
successful array response containing one; exhausting every attempt throws
"Timed out waiting for assistant response.". -/
def pollAgentLoop (fetch : Nat → Option JValue) :
    Nat → Nat → List Nat → Except String String × List Nat
  | 0, _, delays => (.error "Timed out waiting for assistant response.", delays)
  | fuel + 1, i, delays =>
    let delays := delays ++ [AGENT_POLL_DELAY_MS]
    match fetch i with
    | none => pollAgentLoop fetch fuel (i + 1) delays
    | some data =>
      match toMessagesAgent data with
      | some msgs =>
        match (msgs.filter isAssistant).getLast? with
        | some assistantMsg =>
          (.ok (agentResponseText (jGet assistantMsg "content")), delays)
        | none => pollAgentLoop fetch fuel (i + 1) delays
      | none => pollAgentLoop fetch fuel (i + 1) delays

/-- `invokeAgent` after run submission: poll up to 15 attempts; success yields
the extracted response text, exhaustion raises the timeout error. -/
def invokeAgentSim (submit : Except String String)
    (fetch : Nat → Option JValue) : Except String String × List Nat :=
  match submit with
  | .error e => (.error e, [])
  | .ok _threadId => pollAgentLoop fetch AGENT_MAX_ATTEMPTS 0 []

/-! ## Helper lemmas -/

/-- A successful property read implies the value is an object. -/
theorem jGet_some_obj {v : JValue} {k : String} {w : JValue}
    (h : jGet v k = some w) : ∃ fs, v = .jobj fs := by
  cases v <;> simp [jGet] at h ⊢

/-- On an object value, `validateOas` reduces to the branch selected by the
bound-dialect detection. -/
theorem validateOas_obj (fs : List (String × JValue)) :
    validateOas (.jobj fs) =
      match bindingOpenapi? (.jobj fs) with
      | some binding =>
        if isObjLike binding then validateOasBound (.jobj fs) binding
        else validateOas.validateOasOpen (.jobj fs)
      | none => validateOas.validateOasOpen (.jobj fs) := by
  simp [validateOas, truthy, typeofStr]

/-- Every error the bound-dialect branch can emit. -/
theorem mem_validateOasBound {s : String} {oas binding : JValue}
    (h : s ∈ validateOasBound oas binding) :
    s = "binding.openapi.http_method is required" ∨
    s = "binding.openapi.http_path is required" ∨
    s = "input_schema is required for WxO tools" ∨
    s = "name or display_name is required" := by
  simp only [validateOasBound, List.mem_append] at h
  rcases h with ((h | h) | h) | h <;> (split at h <;> simp_all)

/-! ## C3 — validator dialect routing -/

/-- C3 (amended): a document whose `binding.openapi` is an object with truthy
`http_method` and `http_path`, whose `input_schema` is present but not an
object, and which has a `name` or `display_name`, yields exactly the error
"input_schema is required for WxO tools"; moreover no bound-dialect document
is ever reported as missing the `openapi` field — detection runs before the
generic OpenAPI checks. -/
theorem c3_bound_dialect_error_routing :
    (∀ (doc binding iv : JValue),
      bindingOpenapi? doc = some binding →
      isObjLike binding = true →
      truthyOpt (jGet binding "http_method") = true →
      truthyOpt (jGet binding "http_path") = true →
      jGet doc "input_schema" = some iv →
      typeofStr iv ≠ "object" →
      (truthyOpt (jGet doc "name") = true ∨
        truthyOpt (jGet doc "display_name") = true) →
      validateOas doc = ["input_schema is required for WxO tools"]) ∧
    (∀ (doc binding : JValue),
      bindingOpenapi? doc = some binding →
      isObjLike binding = true →
      "Missing required field: openapi" ∉ validateOas doc) := by
  constructor
  · intro doc binding iv hb hobj hm hp hi hiv hname
    obtain ⟨bv, hbv⟩ : ∃ bv, jGet doc "binding" = some bv := by
      rcases h : jGet doc "binding" with _ | bv
      · simp [bindingOpenapi?, h] at hb
      · exact ⟨bv, rfl⟩
    obtain ⟨fs, rfl⟩ := jGet_some_obj hbv
    rw [validateOas_obj, hb]
    simp only [hobj, if_true]
    simp only [validateOasBound, hm, hp, hi]
    have hivb : (typeofStr iv == "object") = false := by
      simp [hiv]
    rcases hname with hn | hn <;>
      simp [hn, hivb]
  · intro doc binding hb hobj hmem
    obtain ⟨bv, hbv⟩ : ∃ bv, jGet doc "binding" = some bv := by
      rcases h : jGet doc "binding" with _ | bv
      · simp [bindingOpenapi?, h] at hb
      · exact ⟨bv, rfl⟩
    obtain ⟨fs, rfl⟩ := jGet_some_obj hbv
    rw [validateOas_obj, hb] at hmem
    simp only [hobj, if_true] at hmem
    rcases mem_validateOasBound hmem with h | h | h | h <;> simp_all

/-- C3 witness: a concrete bound-dialect document with a string
`input_schema` and a `name`, run through the theorem. -/
theorem c3_bound_dialect_error_routing_witness :
    validateOas (.jobj [("binding", .jobj [("openapi", .jobj
        [("http_method", .jstr "GET"), ("http_path", .jstr "/")])]),
      ("input_schema", .jstr "x"), ("name", .jstr "t")]) =
      ["input_schema is required for WxO tools"] :=
  c3_bound_dialect_error_routing.1
    (.jobj [("binding", .jobj [("openapi", .jobj
        [("http_method", .jstr "GET"), ("http_path", .jstr "/")])]),
      ("input_schema", .jstr "x"), ("name", .jstr "t")])
    (.jobj [("http_method", .jstr "GET"), ("http_path", .jstr "/")])
    (.jstr "x") rfl rfl rfl rfl rfl (by simp [typeofStr]) (Or.inl rfl)

/-- C3 counterexample: the claim as stated quantifies over every document
with those three characteristics; a document that additionally lacks both
`name` and `display_name` yields a second error, so the validator's output is
not exactly the single `input_schema` error. -/
theorem c3_counterexample_missing_name :
    validateOas (.jobj [("binding", .jobj [("openapi", .jobj
        [("http_method", .jstr "GET"), ("http_path", .jstr "/")])]),
      ("input_schema", .jstr "x")]) =
      ["input_schema is required for WxO tools",
       "name or display_name is required"] ∧
    ["input_schema is required for WxO tools",
     "name or display_name is required"] ≠
      ["input_schema is required for WxO tools"] := by
  constructor
  · rfl
  · simp

/-! ## C7 — missing `info.version` and the save flow -/

/-- C7 (amended): an OpenAPI-dialect document that passes every other
structural check but has no `info.version` gets exactly the message
"info.version is recommended" — carried in the validator's single error list,
the same channel as hard errors — so the save flow shows the
"Continue anyway?" dialog; the save still proceeds when the user chooses
"Update Anyway" (it is overridable, not hard-blocked). -/
theorem c7_version_recommended_error_channel :
    ∀ (doc info : JValue) (s : String),
      bindingOpenapi? doc = none →
      jGet doc "openapi" = some (.jstr s) →
      s ≠ "" →
      jGet doc "info" = some info →
      truthy info = true →
      truthyOpt (jGet info "title") = true →
      jGet info "version" = none →
      (match jGet doc "paths" with
       | none => True
       | some v => typeofStr v = "object" ∧ isArr v = false) →
      (match jGet doc "servers" with
       | none => True
       | some v => isArr v = true) →
      validateOas doc = ["info.version is recommended"] ∧
      saveSkillDialog doc = .continueAnyway ["info.version is recommended"] ∧
      saveProceeds doc true false = true := by
  intro doc info s hnb ho hs hi hti httl hver hpaths hservers
  obtain ⟨fs, rfl⟩ := jGet_some_obj ho
  have hval : validateOas (.jobj fs) = ["info.version is recommended"] := by
    rw [validateOas_obj, hnb]
    rcases hp : jGet (JValue.jobj fs) "paths" with _ | pv <;>
      rcases hsv : jGet (JValue.jobj fs) "servers" with _ | sv <;>
      rw [hp] at hpaths <;> rw [hsv] at hservers <;>
      simp_all [validateOas.validateOasOpen, ho, hi, hver, truthy, typeofStr]
  refine ⟨hval, ?_, ?_⟩
  · simp [saveSkillDialog, hval]
  · simp [saveProceeds, saveSkillDialog, hval]

/-- C7 witness: a concrete document missing only `info.version`, run through
the theorem. -/
theorem c7_version_recommended_error_channel_witness :
    validateOas (.jobj [("openapi", .jstr "3.0.1"),
        ("info", .jobj [("title", .jstr "T")]),
        ("paths", .jobj []), ("servers", .jarr [])]) =
      ["info.version is recommended"] ∧
    saveSkillDialog (.jobj [("openapi", .jstr "3.0.1"),
        ("info", .jobj [("title", .jstr "T")]),
        ("paths", .jobj []), ("servers", .jarr [])]) =
      .continueAnyway ["info.version is recommended"] ∧
    saveProceeds (.jobj [("openapi", .jstr "3.0.1"),
        ("info", .jobj [("title", .jstr "T")]),
        ("paths", .jobj []), ("servers", .jarr [])]) true false = true :=
  c7_version_recommended_error_channel
    (.jobj [("openapi", .jstr "3.0.1"),
      ("info", .jobj [("title", .jstr "T")]),
      ("paths", .jobj []), ("servers", .jarr [])])
    (.jobj [("title", .jstr "T")]) "3.0.1"
    rfl rfl (by simp) rfl rfl rfl rfl (by exact ⟨rfl, rfl⟩) (by exact rfl)

/-- C7 counterexample: for a document whose only deviation is the absence of
`info.version`, the validator's error list is non-empty — the message lands in
the same single error channel as hard errors, and the save flow takes the
"validation issues / Continue anyway?" branch, not the clean-confirmation
branch the claim's "warning, not a hard error" reading implies. -/
theorem c7_counterexample_version_in_error_list :
    validateOas (.jobj [("openapi", .jstr "3.0.1"),
        ("info", .jobj [("title", .jstr "T")])]) =
      ["info.version is recommended"] ∧
    validateOas (.jobj [("openapi", .jstr "3.0.1"),
        ("info", .jobj [("title", .jstr "T")])]) ≠ [] ∧
    saveSkillDialog (.jobj [("openapi", .jstr "3.0.1"),
        ("info", .jobj [("title", .jstr "T")])]) ≠ .confirmUpdate := by
  refine ⟨rfl, by decide, by decide⟩

/-! ## Compiler helpers shared by the C1/C2/C10 theorems -/

/-- A one-path, one-GET-operation document around a parameter list. -/
def oneGetOas (ps : List Param) : Oas :=
  { paths := [("/t", [("get", { parameters := ps })])] }

/-- The parameters of the first operation of the first path (statement-level
projection used to inspect decompiled documents). -/
def oasFirstParams (oas : Oas) : List Param :=
  match oas.paths with
  | (_, (_, op) :: _) :: _ => op.parameters
  | _ => []

/-- `a ++ "_" ++ b` is strictly longer than `b`, hence distinct from it. -/
theorem append_underscore_ne (a b : String) : a ++ "_" ++ b ≠ b := by
  intro h
  have h2 := congrArg String.length h
  simp [String.length_append] at h2
  exact absurd h2.2 (by decide)

/-- The keys after a JS property assignment are the old keys plus possibly
the assigned key. -/
theorem mem_insertAssoc_keys {α : Type} {l : List (String × α)} {k k0 : String}
    {v : α} :
    k0 ∈ (insertAssoc l k v).map Prod.fst ↔ k0 ∈ l.map Prod.fst ∨ k0 = k := by
  induction l with
  | nil => simp [insertAssoc]
  | cons hd tl ih =>
    obtain ⟨k1, v1⟩ := hd
    by_cases h : k1 = k
    · subst h
      simp [insertAssoc]
      tauto
    · simp [insertAssoc, h, ih]
      tauto

/-- The required-keys invariant of the compiler's parameter loop: every key
pushed to `required` is a key of the accumulated `properties`. -/
theorem compileParams_loop_required_sub (ps : List Param) :
    ∀ (props : List (String × PropSchema)) (req usedKeys : List String),
      (∀ k ∈ req, k ∈ props.map Prod.fst) →
      ∀ k ∈ (compileParams.loop ps props req usedKeys).2,
        k ∈ (compileParams.loop ps props req usedKeys).1.map Prod.fst := by
  induction ps with
  | nil =>
    intro props req usedKeys hinv k hk
    exact hinv k hk
  | cons p rest ih =>
    intro props req usedKeys hinv k hk
    simp only [compileParams.loop] at hk ⊢
    refine ih _ _ _ ?_ k hk
    intro k0 hk0
    have hsplit : k0 ∈ req ∨
        k0 = (if usedKeys.contains p.name then
          strOr p.inLoc? "query" ++ "_" ++ p.name else p.name) := by
      split at hk0
      · simp only [List.mem_append, List.mem_singleton] at hk0
        tauto
      · exact Or.inl hk0
    rcases hsplit with h | h
    · exact mem_insertAssoc_keys.mpr (Or.inl (hinv k0 h))
    · exact mem_insertAssoc_keys.mpr (Or.inr h)

/-! ## C2 — end-to-end compile scenario and operation selection -/

/-- The weather-API document of the specification's end-to-end scenario. -/
def c2WeatherParam : Param :=
  { name := "q", inLoc? := some "query", required := true,
    schema? := some { type? := some "string" } }

def c2WeatherOas : Oas :=
  { paths := [("/current.json", [("get",
      { parameters := [c2WeatherParam],
        resp200? := some { jsonSchema? := some (.jobj [("type", .jstr "object")]) } })])],
    servers := [.obj (some "https://api.weatherapi.com/v1")] }

def c2WeatherMeta : ToolMeta :=
  { name := "get_weather", permission? := some "read_write" }

/-- A path object declaring `post` before `get`. -/
def c2PostThenGetOas : Oas :=
  { paths := [("/p",
      [("post", { operationId? := some "a" }),
       ("get", { operationId? := some "b" })])] }

/-- C2 (amended): the weather scenario compiles to `http_method = "GET"`,
`http_path = "/current.json"`, property `q` with `in = "query"`, and
`required = ["q"]`; only the first declared path is compiled (appending
further paths changes nothing); within that path the compiled operation is
the first method present in the fixed order get, post, put, patch, delete —
not the first declared method. -/
theorem c2_weather_compile_scenario :
    ((buildToolSpec c2WeatherMeta c2WeatherOas).binding?.map (·.http_method) =
        some "GET" ∧
     (buildToolSpec c2WeatherMeta c2WeatherOas).binding?.map (·.http_path) =
        some "/current.json" ∧
     ((buildToolSpec c2WeatherMeta c2WeatherOas).input_schema?.bind fun is =>
        (is.properties.lookup "q").map (·.inLoc)) = some "query" ∧
     ((buildToolSpec c2WeatherMeta c2WeatherOas).input_schema?.bind (·.required?)) =
        some ["q"]) ∧
    (∀ (meta : ToolMeta) (oas : Oas) (p : String × List (String × Operation))
        (rest : List (String × List (String × Operation))),
      buildToolSpec meta { oas with paths := p :: rest } =
        buildToolSpec meta { oas with paths := [p] }) ∧
    ((buildToolSpec { name := "t" } c2PostThenGetOas).binding?.map (·.http_method) =
      some "GET") := by
  refine ⟨⟨by decide, by decide, by decide, by decide⟩, ?_, by decide⟩
  intro meta oas p rest
  obtain ⟨k, v⟩ := p
  simp only [buildToolSpec, selectOp, List.lookup, List.map_cons, List.map_nil,
    beq_self_eq_true, if_true]
  rfl

/-- C2 counterexample: with `post` declared before `get` in the path object,
the compiled binding's method is "GET", not the first-declared "POST" —
method selection follows the fixed order, not declaration order. -/
theorem c2_counterexample_declared_method_order :
    (buildToolSpec { name := "t" } c2PostThenGetOas).binding?.map (·.http_method) =
      some "GET" ∧ some "GET" ≠ some "POST" := by
  exact ⟨by decide, by simp⟩

/-! ## C1 — round-trip of parameter aliasing -/

/-- C1: compiling two same-named parameters with different `in` locations
keys the first under the wire name and the second under `in_name` with the
wire name recorded in `aliasName`; decompiling with `skillToOas` restores
both original names (`aliasName` when present, the raw key otherwise). -/
theorem c1_alias_roundtrip :
    ∀ (p1 p2 : Param) (meta : ToolMeta),
      p1.name = p2.name →
      strOr p1.inLoc? "query" ≠ strOr p2.inLoc? "query" →
      (let spec := buildToolSpec meta (oneGetOas [p1, p2])
       (spec.input_schema?.map fun is => is.properties.map Prod.fst) =
         some [p2.name, strOr p2.inLoc? "query" ++ "_" ++ p2.name] ∧
       (spec.input_schema?.map fun is => is.properties.map fun kv => kv.2.aliasName?) =
         some [none, some p2.name] ∧
       (oasFirstParams (skillToOas spec)).map (·.name) = [p2.name, p2.name]) := by
  intro p1 p2 meta hname hne
  have hkey : strOr p2.inLoc? "query" ++ "_" ++ p2.name ≠ p2.name :=
    append_underscore_ne _ _
  simp [oneGetOas, buildToolSpec, selectOp, methodOrder, List.lookup, hname,
    hkey, Ne.symm hkey, skillToOas, oasFirstParams, insertAssoc,
    compileParams, compileParams.loop]

/-- C1 witness: the `id`-in-query / `id`-in-path collision from the
specification, run through the theorem. -/
theorem c1_alias_roundtrip_witness :
    ({ name := "id", inLoc? := some "query" } : Param).name =
      ({ name := "id", inLoc? := some "path" } : Param).name ∧
    strOr (some "query") "query" ≠ strOr (some "path") "query" ∧
    (let spec := buildToolSpec { name := "t" }
        (oneGetOas [{ name := "id", inLoc? := some "query" },
                    { name := "id", inLoc? := some "path" }])
     (spec.input_schema?.map fun is => is.properties.map Prod.fst) =
       some ["id", "path_id"] ∧
     (spec.input_schema?.map fun is => is.properties.map fun kv => kv.2.aliasName?) =
       some [none, some "id"] ∧
     (oasFirstParams (skillToOas spec)).map (·.name) = ["id", "id"]) := by
  refine ⟨rfl, by decide, ?_⟩
  exact c1_alias_roundtrip { name := "id", inLoc? := some "query" }
    { name := "id", inLoc? := some "path" } { name := "t" } rfl (by decide)

/-! ## C10 — `required` keys are always `properties` keys -/

/-- C10: in every compiled bound-tool record, each element of
`input_schema.required` is a key of `input_schema.properties`; in the
same-name collision case with only the second parameter required, `required`
holds exactly the prefixed key, never the original wire name. -/
theorem c10_required_sub_properties :
    (∀ (meta : ToolMeta) (oas : Oas) (is : InputSchema) (k : String),
      (buildToolSpec meta oas).input_schema? = some is →
      k ∈ is.required?.getD [] →
      k ∈ is.properties.map Prod.fst) ∧
    (∀ (p1 p2 : Param) (meta : ToolMeta),
      p1.name = p2.name →
      p1.required = false →
      p2.required = true →
      ((buildToolSpec meta (oneGetOas [p1, p2])).input_schema?.bind (·.required?)) =
        some [strOr p2.inLoc? "query" ++ "_" ++ p2.name]) := by
  constructor
  · intro meta oas is k his hk
    unfold buildToolSpec at his
    rcases hsel : selectOp oas.paths with _ | ⟨pathKey, method, op⟩
    · rw [hsel] at his
      simp at his
    · rw [hsel] at his
      simp only [Option.some_inj] at his
      have hprops : is.properties = (compileParams op.parameters).1 ∧
          is.required?.getD [] ⊆ (compileParams op.parameters).2 := by
        cases his
        constructor
        · rfl
        · dsimp only
          split
          · exact fun x hx => hx
          · simp
      have hsub := compileParams_loop_required_sub op.parameters [] [] []
        (by intro k0 hk0; simp at hk0)
      rw [hprops.1]
      exact hsub k (hprops.2 hk)
  · intro p1 p2 meta hname h1 h2
    simp [oneGetOas, buildToolSpec, selectOp, methodOrder, List.lookup,
      compileParams, compileParams.loop, hname, h1, h2, insertAssoc]

/-- C10 witness: the invariant and the collision case at the concrete
`id`-in-query / `id`-in-path parameter pair. -/
def c10WitnessOas : Oas :=
  oneGetOas [{ name := "id", inLoc? := some "query" },
             { name := "id", inLoc? := some "path", required := true }]

def c10WitnessSchema : InputSchema :=
  { properties :=
      [("id", { type := "string", title := "id", description := "", inLoc := "query" }),
       ("path_id", { type := "string", title := "id", description := "",
                     inLoc := "path", aliasName? := some "id" })],
    required? := some ["path_id"] }

theorem c10_required_sub_properties_witness :
    (buildToolSpec { name := "t" } c10WitnessOas).input_schema? =
      some c10WitnessSchema ∧
    "path_id" ∈ c10WitnessSchema.required?.getD [] ∧
    "path_id" ∈ c10WitnessSchema.properties.map Prod.fst ∧
    ((buildToolSpec { name := "t" } c10WitnessOas).input_schema?.bind (·.required?)) =
      some ["path_id"] := by
  have h1 : (buildToolSpec { name := "t" } c10WitnessOas).input_schema? =
      some c10WitnessSchema := rfl
  refine ⟨h1, by decide, ?_, ?_⟩
  · exact c10_required_sub_properties.1 { name := "t" } c10WitnessOas
      c10WitnessSchema "path_id" h1 (by decide)
  · exact c10_required_sub_properties.2
      { name := "id", inLoc? := some "query" }
      { name := "id", inLoc? := some "path", required := true }
      { name := "t" } rfl rfl rfl

/-! ## C6 — generation scenario: observed defaults and API-key security -/

def c6ObservedParams : List (String × JValue) :=
  [("q", .jstr "Toronto,On"), ("key", .jstr "abc123")]

/-- The document generated from the specification's scenario: a GET with
observed parameters `{q: "Toronto,On", key: "abc123"}` and the default
API-key parameter name. -/
def c6Generated : Oas :=
  generateOaS "https://api.weatherapi.com/v1/current.json"
    "https://api.weatherapi.com" "/v1/current.json" "GET"
    (some c6ObservedParams) (.jobj []) {} none "1700000000000"

/-- C6: the generated document has a query parameter `q` with
`schema.default = "Toronto,On"`, a `components.securitySchemes.ApiKeyAuth`
of type apiKey in query named "key" (the matched alias), referenced by the
document-level `security` array; and whenever no observed parameter name
matches the configured name or an alias, no security block is attached. -/
theorem c6_generation_scenario :
    ((oasFirstParams c6Generated).find? (fun p => p.name == "q")).bind
        (fun p => p.schema?.bind (·.default?)) = some (.jstr "Toronto,On") ∧
    c6Generated.securitySchemes? = some [("ApiKeyAuth", .jobj
        [("type", .jstr "apiKey"), ("in", .jstr "query"), ("name", .jstr "key")])] ∧
    c6Generated.security? = some (.jarr [.jobj [("ApiKeyAuth", .jarr [])]]) ∧
    (∀ (url origin path method : String) (params : List (String × JValue))
        (rb : JValue) (si : ServiceInfo) (akp? : Option String) (ts : String),
      hasApiKeyParam (params.map Prod.fst) (resolveApiKeyParamName akp?) = false →
      (generateOaS url origin path method (some params) rb si akp? ts).securitySchemes? =
          none ∧
      (generateOaS url origin path method (some params) rb si akp? ts).security? =
          none) := by
  refine ⟨rfl, rfl, rfl, ?_⟩
  intro url origin path method params rb si akp? ts h
  constructor <;> simp [generateOaS, h]

/-- C6 witness: no observed parameter matches, so no security block. -/
theorem c6_generation_scenario_witness :
    hasApiKeyParam ([("city", JValue.jstr "x")].map Prod.fst)
      (resolveApiKeyParamName none) = false ∧
    (generateOaS "u" "o" "/p" "GET" (some [("city", .jstr "x")]) (.jobj [])
      {} none "1").securitySchemes? = none ∧
    (generateOaS "u" "o" "/p" "GET" (some [("city", .jstr "x")]) (.jobj [])
      {} none "1").security? = none := by
  refine ⟨by decide, ?_, ?_⟩
  · exact (c6_generation_scenario.2.2.2 "u" "o" "/p" "GET"
      [("city", .jstr "x")] (.jobj []) {} none "1" (by decide)).1
  · exact (c6_generation_scenario.2.2.2 "u" "o" "/p" "GET"
      [("city", .jstr "x")] (.jobj []) {} none "1" (by decide)).2

/-! ## C8 — table write-back name sanitization -/

/-- `sanitizeKey` never yields an empty key. -/
theorem sanitizeKey_ne_empty (raw : String) (k : String)
    (h : sanitizeKey raw = some k) : k ≠ "" := by
  unfold sanitizeKey at h
  split at h
  · exact absurd h (by simp)
  · dsimp only at h
    split at h
    · exact absurd h (by simp)
    · rename_i s3nil
      simp only [Option.some_inj] at h
      subst h
      intro hk
      exact s3nil (congrArg (fun s => s.data.isEmpty) hk)

/-- Every property key written by the schema-table branch is the sanitized
name of a surviving row. -/
theorem applyParamEditsSchema_keys (rows : List ParamRow) :
    ∀ (props : List (String × EditedProp)) (req : List String) (k : String),
      k ∈ (applyParamEditsSchema.loop rows props req).1.map Prod.fst →
      k ∈ props.map Prod.fst ∨
        ∃ r ∈ rows, r.deleted = false ∧ sanitizeKey (trimStr r.name) = some k := by
  induction rows with
  | nil => intro props req k hk; exact Or.inl hk
  | cons r rest ih =>
    intro props req k hk
    simp only [applyParamEditsSchema.loop] at hk
    by_cases hd : r.deleted
    · rw [if_pos hd] at hk
      rcases ih _ _ _ hk with h | ⟨r0, hr0, h⟩
      · exact Or.inl h
      · exact Or.inr ⟨r0, List.mem_cons_of_mem _ hr0, h⟩
    · rw [if_neg hd] at hk
      rcases hs : sanitizeKey (trimStr r.name) with _ | key
      · rw [hs] at hk
        rcases ih _ _ _ hk with h | ⟨r0, hr0, h⟩
        · exact Or.inl h
        · exact Or.inr ⟨r0, List.mem_cons_of_mem _ hr0, h⟩
      · rw [hs] at hk
        rcases ih _ _ _ hk with h | ⟨r0, hr0, h⟩
        · rcases mem_insertAssoc_keys.mp h with h | h
          · exact Or.inl h
          · exact Or.inr ⟨r, List.mem_cons_self .., by simp [hd, hs, h]⟩
        · exact Or.inr ⟨r0, List.mem_cons_of_mem _ hr0, h⟩

/-- C8 (amended): schema-table names are sanitized by replacing whitespace
runs and characters outside `[A-Za-z0-9_]` with underscores then trimming
leading/trailing underscores (replacement, not stripping); OpenAPI-table
names are only trimmed; rows whose resulting name is empty are silently
skipped; every serialized property key and parameter name is non-empty. -/
theorem c8_writeback_names :
    (∀ (raw k : String), sanitizeKey raw = some k → k ≠ "") ∧
    (∀ (rows : List ParamRow) (k : String),
      k ∈ (applyParamEditsSchema rows).1.map Prod.fst →
      (∃ r ∈ rows, r.deleted = false ∧ sanitizeKey (trimStr r.name) = some k) ∧
        k ≠ "") ∧
    (∀ (rows : List ParamRow) (p : Param),
      p ∈ applyParamEditsPaths rows →
      (∃ r ∈ rows, r.deleted = false ∧ p.name = trimStr r.name) ∧ p.name ≠ "") := by
  refine ⟨sanitizeKey_ne_empty, ?_, ?_⟩
  · intro rows k hk
    rcases applyParamEditsSchema_keys rows [] [] k hk with h | ⟨r, hr, hd, hs⟩
    · simp at h
    · exact ⟨⟨r, hr, hd, hs⟩, sanitizeKey_ne_empty _ _ hs⟩
  · intro rows p hp
    simp only [applyParamEditsPaths, List.mem_filterMap] at hp
    obtain ⟨r, hr, hf⟩ := hp
    by_cases hd : r.deleted
    · rw [if_pos hd] at hf
      exact absurd hf (by simp)
    · rw [if_neg hd] at hf
      by_cases hn : trimStr r.name = ""
      · rw [if_pos hn] at hf
        exact absurd hf (by simp)
      · rw [if_neg hn] at hf
        simp only [Option.some_inj] at hf
        subst hf
        exact ⟨⟨r, hr, by simpa using hd, rfl⟩, hn⟩

/-- C8 witness: a row named " my param!" survives as key `my_param`
(whitespace and `!` replaced by underscores, trailing underscore trimmed) and
a row named "###" is skipped; the paths branch keeps the trimmed name. -/
theorem c8_writeback_names_witness :
    sanitizeKey "my param!" = some "my_param" ∧ "my_param" ≠ "" ∧
    (applyParamEditsSchema [{ name := " my param!" }, { name := "###" }]).1.map
      Prod.fst = ["my_param"] ∧
    "my_param" ∈ (applyParamEditsSchema
      [{ name := " my param!" }, { name := "###" }]).1.map Prod.fst ∧
    (∃ r ∈ [({ name := " my param!" } : ParamRow), { name := "###" }],
      r.deleted = false ∧ sanitizeKey (trimStr r.name) = some "my_param") := by
  refine ⟨by decide, ?_, by decide, ?_, ?_⟩
  · exact c8_writeback_names.1 "my param!" "my_param" (by decide)
  · exact (by decide : "my_param" ∈ (applyParamEditsSchema
      [{ name := " my param!" }, { name := "###" }]).1.map Prod.fst)
  · exact (c8_writeback_names.2.1 [{ name := " my param!" }, { name := "###" }]
      "my_param" (by decide)).1

/-- C8 counterexample: the claim says characters outside `[A-Za-z0-9_]` are
stripped; the source replaces them with underscores instead, so the row named
"a-b" serializes under the key "a_b", not the stripped "ab" (shown against a
literal rendering of the claim's words, `sanitizeKeySpecWords`). -/
theorem c8_counterexample_replace_not_strip :
    (applyParamEditsSchema [{ name := "a-b" }]).1.map Prod.fst = ["a_b"] ∧
    sanitizeKeySpecWords "a-b" = some "ab" ∧
    ("a_b" : String) ≠ "ab" := by
  exact ⟨by decide, by decide, by decide⟩

/-! ## C9 — update payload restriction and PUT/PATCH fallback -/

/-- Keys only accumulate through `condAppend`. -/
theorem mem_condAppend_keys {acc : List (String × JValue)} {f : String}
    {o : Option JValue} {k : String}
    (h : k ∈ (condAppend acc f o).map Prod.fst) :
    k ∈ acc.map Prod.fst ∨ k = f := by
  rcases o with _ | v
  · exact Or.inl h
  · simp only [condAppend] at h
    split at h
    · simp only [List.map_append, List.mem_append] at h
      rcases h with h | h
      · exact Or.inl h
      · simp at h
        exact Or.inr h
    · exact Or.inl h

/-- Every key of the update payload is in the allowed field set. -/
theorem updateSkillPayload_keys (skillJson : JValue)
    (payload : List (String × JValue)) (k : String)
    (hp : updateSkillPayload skillJson = some payload)
    (hk : k ∈ payload.map Prod.fst) :
    k ∈ ["name", "display_name", "description", "permission",
         "restrictions", "tags"] := by
  unfold updateSkillPayload at hp
  dsimp only at hp
  split at hp
  · split at hp
    · simp only [Option.map_some', Option.some_inj] at hp
      subst hp
      rcases mem_condAppend_keys hk with hk | hk
      · rcases mem_condAppend_keys hk with hk | hk
        · simp only [List.map_append, List.mem_append] at hk
          rcases hk with hk | hk
          · rcases mem_condAppend_keys hk with hk | hk
            · rcases mem_condAppend_keys hk with hk | hk
              · simp at hk
                simp [hk]
              · simp [hk]
            · simp [hk]
          · simp at hk
            simp [hk]
        · simp [hk]
      · simp [hk]
    · exact absurd hp (by simp)
  · simp only [Option.map_some', Option.some_inj] at hp
    subst hp
    rcases mem_condAppend_keys hk with hk | hk
    · rcases mem_condAppend_keys hk with hk | hk
      · simp only [List.map_append, List.mem_append] at hk
        rcases hk with hk | hk
        · rcases mem_condAppend_keys hk with hk | hk
          · rcases mem_condAppend_keys hk with hk | hk
            · simp at hk
            · simp [hk]
          · simp [hk]
        · simp at hk
          simp [hk]
      · simp [hk]
    · simp [hk]

/-- C9: every request issued by an update carries only allowed payload keys,
the first request is a PUT, and a PATCH with the same payload follows exactly
when the PUT response status is 405. -/
theorem c9_update_payload_and_fallback :
    ∀ (skillId : String) (skillJson : JValue) (putStatus : Nat)
      (reqs : List HttpRequest),
      updateSkillRequests skillId skillJson putStatus = some reqs →
      (∀ r ∈ reqs, ∀ k ∈ r.body.map Prod.fst,
        k ∈ ["name", "display_name", "description", "permission",
             "restrictions", "tags"]) ∧
      reqs.map (·.method) = (if putStatus = 405 then ["PUT", "PATCH"] else ["PUT"]) := by
  intro skillId skillJson putStatus reqs hreqs
  unfold updateSkillRequests at hreqs
  rcases hp : updateSkillPayload skillJson with _ | payload
  · rw [hp] at hreqs
    exact absurd hreqs (by simp)
  · rw [hp] at hreqs
    simp only [Option.map_some', Option.some_inj] at hreqs
    subst hreqs
    constructor
    · intro r hr k hk
      have hbody : r.body = payload := by
        simp only [List.mem_append, List.mem_singleton] at hr
        rcases hr with hr | hr
        · subst hr; rfl
        · split at hr
          · simp at hr
            subst hr; rfl
          · simp at hr
      rw [hbody] at hk
      exact updateSkillPayload_keys skillJson payload k hp hk
    · by_cases h405 : putStatus = 405 <;> simp [h405]

/-- C9 witness: a document with extra fields and a 405 PUT response, run
through the theorem. -/
def c9WitnessJson : JValue :=
  .jobj [("name", .jstr "My Tool!"), ("foo", .jstr "x"),
         ("tags", .jarr [.jstr "a"])]

def c9WitnessBody : List (String × JValue) :=
  [("name", .jstr "My_Tool_"), ("permission", .jstr "read_write"),
   ("tags", .jarr [.jstr "a"])]

def c9WitnessReqs : List HttpRequest :=
  [{ method := "PUT", path := "/v1/orchestrate/tools/id1", body := c9WitnessBody },
   { method := "PATCH", path := "/v1/orchestrate/tools/id1", body := c9WitnessBody }]

theorem c9_update_payload_and_fallback_witness :
    updateSkillRequests "id1" c9WitnessJson 405 = some c9WitnessReqs ∧
    ((∀ r ∈ c9WitnessReqs, ∀ k ∈ r.body.map Prod.fst,
        k ∈ ["name", "display_name", "description", "permission",
             "restrictions", "tags"]) ∧
      c9WitnessReqs.map (·.method) =
        (if (405 : Nat) = 405 then ["PUT", "PATCH"] else ["PUT"])) :=
  ⟨rfl, c9_update_payload_and_fallback "id1" c9WitnessJson 405 c9WitnessReqs rfl⟩

/-! ## Poll-loop lemmas shared by the C4/C5 theorems -/

/-- With a transport that never yields an assistant message, the tool poll
loop burns all its fuel, one fixed delay per attempt. -/
theorem pollToolLoop_no_assistant (fetch : Nat → Option JValue)
    (hna : ∀ i body, fetch i = some body →
      (toMessagesTool body).any isAssistant = false) :
    ∀ (fuel i : Nat) (msgs : List JValue) (delays : List Nat),
      (pollToolLoop fetch fuel i msgs delays).2 =
        delays ++ List.replicate fuel TOOL_POLL_DELAY_MS := by
  intro fuel
  induction fuel with
  | zero => intro i msgs delays; simp [pollToolLoop]
  | succ n ih =>
    intro i msgs delays
    simp only [pollToolLoop]
    rcases hf : fetch i with _ | body
    · simp only [hf]
      rw [ih]
      simp [List.replicate_succ]
    · simp only [hf, hna i body hf, Bool.false_eq_true, if_false]
      rw [ih]
      simp [List.replicate_succ]

/-- With a constant assistant-free response, the final message list is that
response's (unwrapped) message list. -/
theorem pollToolLoop_const_messages (body : JValue)
    (hna : (toMessagesTool body).any isAssistant = false) :
    ∀ (fuel i : Nat) (msgs : List JValue) (delays : List Nat),
      (pollToolLoop (fun _ => some body) (fuel + 1) i msgs delays).1 =
        toMessagesTool body := by
  intro fuel
  induction fuel with
  | zero =>
    intro i msgs delays
    simp [pollToolLoop, hna]
  | succ n ih =>
    intro i msgs delays
    conv_lhs => rw [pollToolLoop]
    simp only [hna, Bool.false_eq_true, if_false]
    exact ih _ _ _

/-- With a transport that never yields an assistant message, the agent poll
loop exhausts its fuel and raises the timeout error, one fixed delay per
attempt. -/
theorem pollAgentLoop_no_assistant (fetch : Nat → Option JValue)
    (hna : ∀ i data, fetch i = some data →
      ∀ msgs, toMessagesAgent data = some msgs → msgs.filter isAssistant = []) :
    ∀ (fuel i : Nat) (delays : List Nat),
      pollAgentLoop fetch fuel i delays =
        (.error "Timed out waiting for assistant response.",
         delays ++ List.replicate fuel AGENT_POLL_DELAY_MS) := by
  intro fuel
  induction fuel with
  | zero => intro i delays; simp [pollAgentLoop]
  | succ n ih =>
    intro i delays
    simp only [pollAgentLoop]
    rcases hf : fetch i with _ | data
    · simp only [hf]
      rw [ih]
      simp [List.replicate_succ]
    · rcases hm : toMessagesAgent data with _ | msgs
      · simp only [hf, hm]
        rw [ih]
        simp [List.replicate_succ]
      · simp only [hf, hm, hna i data hf msgs hm, List.getLast?_nil]
        rw [ih]
        simp [List.replicate_succ]

/-- Unfolding equation for the tool orchestrator after a successful submit. -/
theorem invokeToolRemoteSim_ok_eq (tid : String) (fetch : Nat → Option JValue) :
    (invokeToolRemoteSim (.ok tid) fetch).1 =
      .ok (match toolResponseData
            (match (pollToolLoop fetch TOOL_MAX_ATTEMPTS 0 [] []).1.find? isAssistant with
             | some m => some m
             | none => (pollToolLoop fetch TOOL_MAX_ATTEMPTS 0 [] []).1.head?) with
          | some d => d
          | none =>
            if (pollToolLoop fetch TOOL_MAX_ATTEMPTS 0 [] []).1.length > 0 then
              .jarr (pollToolLoop fetch TOOL_MAX_ATTEMPTS 0 [] []).1
            else .jobj [("thread_id", .jstr tid),
                        ("info", .jstr "No tool output in messages.")], tid) := rfl

theorem invokeToolRemoteSim_ok_delays (tid : String) (fetch : Nat → Option JValue) :
    (invokeToolRemoteSim (.ok tid) fetch).2 =
      (pollToolLoop fetch TOOL_MAX_ATTEMPTS 0 [] []).2 := rfl

theorem invokeAgentSim_ok_eq (tid : String) (fetch : Nat → Option JValue) :
    invokeAgentSim (.ok tid) fetch = pollAgentLoop fetch AGENT_MAX_ATTEMPTS 0 [] := rfl

/-! ## C4 — timeout behaviour of the two orchestrators -/

/-- C4 (amended): after a successful submission, tool invocation never raises
— when no assistant message ever appears it returns a degraded result: with a
constant assistant-free response whose first message has no truthy content,
the data is the raw accumulated message list (a placeholder object when the
list is empty). Agent chat instead raises "Timed out waiting for assistant
response." when its 15 attempts are exhausted without an assistant message. -/
theorem c4_timeout_degraded_vs_raise :
    (∀ (fetch : Nat → Option JValue) (tid : String),
      (∀ i body, fetch i = some body →
        (toMessagesTool body).any isAssistant = false) →
      ((invokeToolRemoteSim (.ok tid) fetch).1).isOk = true) ∧
    (∀ (tid : String) (body : JValue),
      (toMessagesTool body).any isAssistant = false →
      (∀ m, (toMessagesTool body).head? = some m →
        truthyOpt (jGet m "content") = false) →
      (invokeToolRemoteSim (.ok tid) (fun _ => some body)).1 =
        .ok (if (toMessagesTool body).length > 0 then .jarr (toMessagesTool body)
             else .jobj [("thread_id", .jstr tid),
                         ("info", .jstr "No tool output in messages.")], tid)) ∧
    (∀ (fetch : Nat → Option JValue) (tid : String),
      (∀ i data, fetch i = some data →
        ∀ msgs, toMessagesAgent data = some msgs →
          msgs.filter isAssistant = []) →
      (invokeAgentSim (.ok tid) fetch).1 =
        .error "Timed out waiting for assistant response.") := by
  refine ⟨?_, ?_, ?_⟩
  · intro fetch tid _
    rfl
  · intro tid body hna hcontent
    have hmsgs : (pollToolLoop (fun _ => some body) TOOL_MAX_ATTEMPTS 0 [] []).1 =
        toMessagesTool body := pollToolLoop_const_messages body hna 11 0 [] []
    have hfind : (toMessagesTool body).find? isAssistant = none := by
      rw [List.find?_eq_none]
      intro x hx
      simp only [List.any_eq_false] at hna
      exact fun hp => hna x hx hp
    have hdata : toolResponseData
        (match (toMessagesTool body).find? isAssistant with
         | some m => some m
         | none => (toMessagesTool body).head?) = none := by
      rw [hfind]
      rcases hh : (toMessagesTool body).head? with _ | m
      · rfl
      · have hc := hcontent m hh
        simp only [toolResponseData]
        rcases hg : jGet m "content" with _ | c
        · rfl
        · rw [hg] at hc
          simp only [truthyOpt] at hc
          simp [hc]
    rw [invokeToolRemoteSim_ok_eq, hmsgs, hdata]
  · intro fetch tid hna
    rw [invokeAgentSim_ok_eq, pollAgentLoop_no_assistant fetch hna]

/-- C4 witness: a user-only thread for the tool orchestrator and an
empty-thread transport for the agent orchestrator, run through the theorem. -/
theorem c4_timeout_degraded_vs_raise_witness :
    ((invokeToolRemoteSim (.ok "t1") (fun _ => none)).1).isOk = true ∧
    (invokeToolRemoteSim (.ok "t2")
        (fun _ => some (.jarr [.jobj [("role", .jstr "user")]]))).1 =
      .ok (if ([JValue.jobj [("role", .jstr "user")]] : List JValue).length > 0 then
            .jarr [.jobj [("role", .jstr "user")]]
           else .jobj [("thread_id", .jstr "t2"),
                       ("info", .jstr "No tool output in messages.")], "t2") ∧
    (invokeAgentSim (.ok "t3") (fun _ => some (.jarr []))).1 =
      .error "Timed out waiting for assistant response." :=
  ⟨c4_timeout_degraded_vs_raise.1 (fun _ => none) "t1" (fun i body h => by simp at h),
   c4_timeout_degraded_vs_raise.2.1 "t2" (.jarr [.jobj [("role", .jstr "user")]])
     (by decide) (fun m hm => by
       simp only [toMessagesTool, List.head?] at hm
       rw [← Option.some_inj.mp hm]
       rfl),
   c4_timeout_degraded_vs_raise.2.2 (fun _ => some (.jarr [])) "t3"
     (fun i data h msgs hm => by
       simp only [Option.some_inj] at h
       subst h
       simp only [toMessagesAgent, jGet, jOr, truthyOpt, List.lookup] at hm
       rw [← Option.some_inj.mp hm]
       rfl)⟩

/-- C4 counterexample: a concrete agent-chat transport that never returns an
assistant message makes `invokeAgent` raise the timeout error — it does not
return a degraded result, so the claim's "both orchestrators return instead
of raising" fails for agent chat. -/
theorem c4_counterexample_agent_chat_raises :
    (invokeAgentSim (.ok "t") (fun _ => some (.jarr []))).1 =
      .error "Timed out waiting for assistant response." ∧
    (∀ s : String,
      (Except.error "Timed out waiting for assistant response." :
        Except String String) ≠ .ok s) := by
  constructor
  · rfl
  · intro s h
    exact Except.noConfusion h

/-! ## C5 — poll attempt counts, delays, and which assistant message -/

def c5MsgA : JValue := .jobj [("role", .jstr "assistant"), ("content", .jstr "A")]
def c5MsgB : JValue := .jobj [("role", .jstr "assistant"), ("content", .jstr "B")]

/-- A transport whose every poll returns two assistant messages, "A" first. -/
def c5TwoAssistants : Nat → Option JValue :=
  fun _ => some (.jarr [c5MsgA, c5MsgB])

/-- C5 (amended): with an assistant-free transport, tool invocation performs
exactly 12 poll attempts each preceded by a 4000 ms delay, and agent chat
exactly 15 attempts each preceded by a 2000 ms delay; tool invocation
extracts the FIRST assistant message, while agent chat extracts the LAST
assistant message of the poll response. -/
theorem c5_poll_bounds_and_extraction :
    (∀ (fetch : Nat → Option JValue) (tid : String),
      (∀ i body, fetch i = some body →
        (toMessagesTool body).any isAssistant = false) →
      (invokeToolRemoteSim (.ok tid) fetch).2 = List.replicate 12 4000) ∧
    (∀ (fetch : Nat → Option JValue) (tid : String),
      (∀ i data, fetch i = some data →
        ∀ msgs, toMessagesAgent data = some msgs →
          msgs.filter isAssistant = []) →
      (invokeAgentSim (.ok tid) fetch).2 = List.replicate 15 2000) ∧
    ((invokeToolRemoteSim (.ok "t") c5TwoAssistants).1 = .ok (.jstr "A", "t")) ∧
    ((invokeAgentSim (.ok "t") c5TwoAssistants).1 = .ok "B") := by
  refine ⟨?_, ?_, rfl, rfl⟩
  · intro fetch tid hna
    rw [invokeToolRemoteSim_ok_delays, pollToolLoop_no_assistant fetch hna]
    rfl
  · intro fetch tid hna
    show (invokeAgentSim (.ok tid) fetch).2 = _
    rw [invokeAgentSim_ok_eq, pollAgentLoop_no_assistant fetch hna]
    rfl

/-- C5 witness: a transport whose fetches always fail satisfies both
assistant-free hypotheses; the bounds follow from the theorem. -/
theorem c5_poll_bounds_and_extraction_witness :
    (invokeToolRemoteSim (.ok "t") (fun _ => none)).2 = List.replicate 12 4000 ∧
    (invokeAgentSim (.ok "t") (fun _ => none)).2 = List.replicate 15 2000 :=
  ⟨c5_poll_bounds_and_extraction.1 (fun _ => none) "t" (fun i body h => by simp at h),
   c5_poll_bounds_and_extraction.2.1 (fun _ => none) "t" (fun i data h => by simp at h)⟩

/-- C5 counterexample: agent chat does not extract the first assistant
message — polled with two assistant messages whose texts are "A" (first) and
"B" (last), `invokeAgent` returns "B". -/
theorem c5_counterexample_agent_extracts_last :
    (invokeAgentSim (.ok "t") c5TwoAssistants).1 = .ok "B" ∧
    (([c5MsgA, c5MsgB].find? isAssistant).bind fun m => jGet m "content") =
      some (.jstr "A") ∧
    ("B" : String) ≠ "A" := by
  exact ⟨rfl, rfl, by decide⟩

end WxO
